import Mathlib

/-!
Verification of the `unstructured-mlk-archive-public` scripts.

The development shallowly embeds the three Python scripts:
  * `mlk_archive_to_s3/download_to_s3.py` — `MLKArchiveDownloader`
  * `mlk_archive_to_s3/scrape_mlk_records.py` — `scrape_mlk_records`, `save_records`
  * `s3_hosting/generate_index.py` — index page generator

Network and object-store I/O is modelled by passing in the observed
responses explicitly (an environment per URL), and file output by
returning the list of (name, content) pairs the script writes.
-/

namespace MLK

/-- Last index at which character `c` occurs in `l`, if any. -/
def lastIndexOf (l : List Char) (c : Char) : Option Nat :=
  (l.enum.filter (fun p => p.2 == c)).getLast?.map (fun p => p.1)

/-- `os.path.basename`: the part of the path after the last `/`. -/
def basename (p : String) : String :=
  match lastIndexOf p.data '/' with
  | none => p
  | some s => String.mk (p.data.drop (s + 1))

/-- `os.path.splitext` on the characters of a path: split off the extension
at the last dot, provided the dot lies after the last path separator and the
base name does not consist solely of leading dots up to that point
(so `.bashrc` has no extension). Returns (root, ext). -/
def splitext (p : String) : String × String :=
  let l := p.data
  match lastIndexOf l '.' with
  | none => (p, "")
  | some d =>
    let start := match lastIndexOf l '/' with
      | none => 0
      | some s => s + 1
    if start ≤ d ∧ (List.range' start (d - start)).any (fun i => l.getD i ' ' ≠ '.') then
      (String.mk (l.take d), String.mk (l.drop d))
    else
      (p, "")

/-- ASCII lowercasing, as `str.lower` acts on the ASCII filenames at hand. -/
def strToLower (s : String) : String :=
  String.mk (s.data.map Char.toLower)

/-- `MLKArchiveDownloader.get_content_type`: map the lowercased extension of
`filename` through the fixed dictionary, defaulting to octet-stream. -/
def get_content_type (filename : String) : String :=
  let ext := strToLower (splitext filename).2
  if ext = ".pdf" then "application/pdf"
  else if ext = ".mp3" then "audio/mpeg"
  else if ext = ".txt" then "text/plain"
  else if ext = ".json" then "application/json"
  else "application/octet-stream"

/-- An object as stored in the bucket.  `reportedLength` is the
`ContentLength` field of a `head_object` response on it (`none` models a
response lacking the field, which the code defaults to `-1`). -/
structure StoredObject where
  body : List Nat
  reportedLength : Option Int
  contentType : String
  metadata : List (String × String)
deriving Repr, DecidableEq

/-- The bucket: an association list from keys to stored objects. -/
def Bucket := List (String × StoredObject)

/-- `head_object` lookup by key. -/
def lookupObj (b : Bucket) (key : String) : Option StoredObject :=
  (List.find? (fun p => p.1 == key) b).map (fun p => p.2)

/-- `upload_fileobj`: store `obj` under `key`, replacing any previous object. -/
def insertObj (b : Bucket) (key : String) (obj : StoredObject) : Bucket :=
  (List.filter (fun p => ¬ p.1 == key) b) ++ [(key, obj)]

/-- The observable network/S3 behaviour for one URL: what the HEAD request,
the GET request, and the S3 calls would do if issued. -/
structure UrlEnv where
  /-- `urlparse(url).path`. -/
  path : String
  /-- HEAD outcome: a `requests.RequestException`, or success carrying the
  parsed `content-length` header (`none` if the header is absent). -/
  headResult : Except String (Option Nat)
  /-- `head_object` raises a `ClientError` other than 404. -/
  s3Error : Bool
  /-- GET outcome: a `requests.RequestException`, or the full body bytes. -/
  getResult : Except String (List Nat)
  /-- `upload_fileobj` raises. -/
  uploadError : Bool
deriving Repr

/-- The downloader's mutable state: the bucket plus the three counters. -/
structure RunState where
  bucket : Bucket
  downloaded : Nat
  failed : Nat
  totalSize : Nat

/-- The `(success, filename, error_message)` tuple the method returns. -/
structure DLResult where
  success : Bool
  filename : String
  errorMsg : Option String
deriving Repr, DecidableEq

/-- `MLKArchiveDownloader.download_and_upload_file`, with the I/O of the two
HTTP requests and the S3 calls supplied by `e`.  `now` is the value
`time.strftime` produces at upload time. -/
def download_and_upload_file (e : UrlEnv) (url keyPref now : String)
    (st : RunState) : DLResult × RunState :=
  let filename := basename e.path
  let s3_key := keyPref ++ filename
  match e.headResult with
  | .error msg =>
      (⟨false, filename, some ("Failed to fetch headers for " ++ filename ++ ": " ++ msg)⟩,
       { st with failed := st.failed + 1 })
  | .ok header =>
      let remote_size : Int := Int.ofNat (header.getD 0)
      if e.s3Error then
        -- the re-raised ClientError lands in the outer `except Exception`
        (⟨false, filename, some "Upload error"⟩, { st with failed := st.failed + 1 })
      else
        let skip : Bool :=
          match lookupObj st.bucket s3_key with
          | some obj => obj.reportedLength.getD (-1) == remote_size
          | none => false
        if skip then
          (⟨true, filename, some "Already exists and matches size"⟩, st)
        else
          match e.getResult with
          | .error msg =>
              (⟨false, filename, some ("Download error: " ++ msg)⟩,
               { st with failed := st.failed + 1 })
          | .ok body =>
              if e.uploadError then
                (⟨false, filename, some "Upload error"⟩, { st with failed := st.failed + 1 })
              else
                let buffer_size := body.length
                (⟨true, filename, none⟩,
                 { bucket := insertObj st.bucket s3_key
                     ⟨body, some (Int.ofNat buffer_size), get_content_type filename,
                      [("source_url", url), ("download_date", now),
                       ("content_length", toString buffer_size)]⟩,
                   downloaded := st.downloaded + 1,
                   failed := st.failed,
                   totalSize := st.totalSize + buffer_size })

/-- One entry of the URL file together with the network behaviour behind it. -/
structure UrlTask where
  url : String
  env : UrlEnv

/-- The download loop of `download_from_url_file`: each task's future runs
`download_and_upload_file`; the shared state threads through the calls.
Also collects the per-call result tuples. -/
def processUrls (keyPref now : String) :
    List UrlTask → RunState → RunState × List DLResult
  | [], st => (st, [])
  | t :: ts, st =>
    let p := download_and_upload_file t.env t.url keyPref now st
    let q := processUrls keyPref now ts p.2
    (q.1, p.1 :: q.2)

/-- A call that uploaded: `return True, filename, None`. -/
def isUploaded (r : DLResult) : Bool :=
  r.success && r.errorMsg == none

/-- A call that skipped an already-stored matching object:
`return True, filename, "Already exists and matches size"`. -/
def isSkipped (r : DLResult) : Bool :=
  r.success && !(r.errorMsg == none)

/-- Number of bytes the GET for this environment would deliver. -/
def envBodySize (e : UrlEnv) : Nat :=
  match e.getResult with
  | .ok body => body.length
  | .error _ => 0

/-- Total bytes of the bodies uploaded over a run, read off the
task/result pairing. -/
def uploadedBytes : List (UrlTask × DLResult) → Nat
  | [] => 0
  | (t, r) :: ps => (if isUploaded r then envBodySize t.env else 0) + uploadedBytes ps

/-- A single-URL run in which the stored object already matches the remote
size, so the only call skips and neither counter moves. -/
def skippedRun : RunState × List DLResult :=
  processUrls "mlk-archive/" "2025-07-22 13:38:07"
    [⟨"https://www.archives.gov/files/research/mlk/a.pdf",
      ⟨"/files/research/mlk/a.pdf", .ok (some 5), false, .ok [1, 2, 3, 4, 5], false⟩⟩]
    ⟨[("mlk-archive/a.pdf", ⟨[1, 2, 3, 4, 5], some 5, "application/pdf", []⟩)], 0, 0, 0⟩

/-- An `<a href=...>` element: its href attribute and its text. -/
structure Link where
  href : String
  text : String
deriving Repr, DecidableEq

/-- A table cell (`<td>` or `<th>`): its tag, its text, and the links in it. -/
structure Cell where
  isTh : Bool
  text : String
  links : List Link
deriving Repr, DecidableEq

/-- A table row (`<tr>`). -/
structure HtmlRow where
  cells : List Cell
deriving Repr, DecidableEq

/-- A `<table>` element. -/
structure HtmlTable where
  rows : List HtmlRow
deriving Repr, DecidableEq

/-- The fetched page: its tables and every `<a href>` on it, in order. -/
structure Page where
  tables : List HtmlTable
  bodyLinks : List Link
deriving Repr, DecidableEq

/-- An ASCII whitespace character, as `str.strip()` removes on the ASCII
text at hand. -/
def isSpaceChar (c : Char) : Bool :=
  c = ' ' || c = '\t' || c = '\n' || c = '\r' || c = '\x0b' || c = '\x0c'

/-- Python `str.strip()`: drop whitespace from both ends. -/
def strip (s : String) : String :=
  String.mk (((s.data.dropWhile isSpaceChar).reverse.dropWhile isSpaceChar).reverse)

/-- `t.find_all('th')` with `get_text().strip()` applied to each. -/
def tableHeaders (t : HtmlTable) : List String :=
  (((t.rows.map (fun r => r.cells)).flatten).filter (fun c => c.isTh)).map
    (fun c => strip c.text)

/-- `t.find_all('a', href=True)`: every link inside the table. -/
def tableLinks (t : HtmlTable) : List Link :=
  ((t.rows.map (fun r => r.cells)).flatten.map (fun c => c.links)).flatten

/-- Substring occurrence on character lists. -/
def containsSub (hay needle : List Char) : Bool :=
  (List.range (hay.length + 1)).any (fun i => needle.isPrefixOf (hay.drop i))

/-- `pat in href.lower()` for an ASCII pattern `pat`. -/
def hrefContains (href pat : String) : Bool :=
  containsSub (strToLower href).data pat.data

/-- A scraped record: the dict
`{'filename': ..., 'url': ..., 'release_date': ...}`. -/
structure Record where
  filename : String
  url : String
  release_date : String
deriving Repr, DecidableEq

/-- The `urllib.parse` functions the scraper pipes strings through; kept
abstract since the scripts use them as black boxes. -/
structure UrlLib where
  /-- `urllib.parse.urljoin`. -/
  urljoin : String → String → String
  /-- `urlparse(href).path`. -/
  urlpath : String → String

/-- The page the scraper targets is rooted here. -/
def base_url : String := "https://www.archives.gov"

/-- First selection loop of `scrape_mlk_records`: the first table with at
least two `th` cells whose stripped texts include both 'Record Number' and
'NARA Release Date'. -/
def findRecordsTable (tables : List HtmlTable) : Option HtmlTable :=
  tables.find? (fun t =>
    decide (2 ≤ (tableHeaders t).length)
      && (tableHeaders t).contains "Record Number"
      && (tableHeaders t).contains "NARA Release Date")

/-- First fallback: the first table with more than 10 links whose href
contains `.pdf` (case-insensitively). -/
def findPdfTable (tables : List HtmlTable) : Option HtmlTable :=
  tables.find? (fun t =>
    decide (10 < ((tableLinks t).filter
      (fun l => hrefContains l.href ".pdf")).length))

/-- Row extraction from the chosen table: skip the header row; a row yields
a record when it has at least two cells and its first cell contains a link.
The filename is the link's stripped text, the url is the href made absolute
against the base URL, the release date is the second cell's stripped text. -/
def extractTableRecords (lib : UrlLib) (t : HtmlTable) : List Record :=
  (t.rows.drop 1).filterMap (fun row =>
    match row.cells with
    | c0 :: c1 :: _ =>
      match c0.links.head? with
      | some link =>
          some ⟨strip link.text, lib.urljoin base_url link.href, strip c1.text⟩
      | none => none
    | _ => none)

/-- Second fallback: every link on the page whose href contains `.pdf` or
`.mp3`; the filename is the stripped link text, or the basename of the href
path when that text is empty; the release date is 'Unknown'. -/
def fullPageRecords (lib : UrlLib) (links : List Link) : List Record :=
  (links.filter (fun l =>
      hrefContains l.href ".pdf" || hrefContains l.href ".mp3")).map
    (fun l =>
      ⟨if strip l.text = "" then basename (lib.urlpath l.href) else strip l.text,
       lib.urljoin base_url l.href, "Unknown"⟩)

/-- What fetching and parsing the archive page produced. -/
inductive FetchOutcome
  /-- the page was fetched and parsed -/
  | ok (page : Page)
  /-- a `requests.RequestException` was raised while fetching -/
  | requestError (msg : String)
  /-- any other exception was raised while parsing -/
  | parseError (msg : String)

/-- `scrape_mlk_records`, with the page fetch supplied as `fetch`. -/
def scrape_mlk_records (lib : UrlLib) (fetch : FetchOutcome) : List Record :=
  match fetch with
  | .requestError _ => []
  | .parseError _ => []
  | .ok page =>
    match findRecordsTable page.tables with
    | some t => extractTableRecords lib t
    | none =>
      match findPdfTable page.tables with
      | some t => extractTableRecords lib t
      | none => fullPageRecords lib page.bodyLinks

/-- `csv` QUOTE_MINIMAL field encoding, as `csv.DictWriter` writes it:
quote a field holding a delimiter, a quote or a line-terminator character,
doubling interior quotes. -/
def csvField (s : String) : String :=
  if s.data.any (fun c => c = ',' || c = '\"' || c = '\r' || c = '\n') then
    "\"" ++ String.mk ((s.data.map
      (fun c => if c = '\"' then ['\"', '\"'] else [c])).flatten) ++ "\""
  else s

/-- One CSV data row (the writer's line terminator is CRLF). -/
def csvRow (r : Record) : String :=
  csvField r.filename ++ "," ++ csvField r.url ++ ","
    ++ csvField r.release_date ++ "\r\n"

/-- The line `writeheader` emits. -/
def csvHeader : String := "filename,url,release_date\r\n"

/-- `save_records`: the files written, as (name, content) pairs.  `jsonDump`
stands for `json.dump(records, indent=2, ensure_ascii=False)`, abstract
here; `ts` is the `time.strftime` timestamp baked into the filenames. -/
def save_records (jsonDump : List Record → String) (records : List Record)
    (format ts : String) : List (String × String) :=
  if records = [] then []
  else
    (if format = "csv" then
      [("mlk_records_" ++ ts ++ ".csv",
        csvHeader ++ String.join (records.map csvRow))]
     else if format = "json" then
      [("mlk_records_" ++ ts ++ ".json", jsonDump records)]
     else []) ++
    [("mlk_urls_" ++ ts ++ ".txt",
      String.join (records.map (fun r => r.url ++ "\n")))]

/-- The bucket name hard-coded in `generate_index.py`. -/
def BUCKET : String := "example-transformations-mlk-archive"

/-- The hosted processed-dataset link hard-coded in `generate_index.py`. -/
def PROCESSED_JSONL_URL : String :=
  "https://example-transformations-mlk-archive.s3.us-east-1.amazonaws.com/transformed-data/mlk-archive-public.jsonl"

/-- `key.endswith("/")`. -/
def endsWithSlash (key : String) : Bool :=
  key.data.getLast? == some '/'

/-- The `<li>` anchor line emitted for the object with key `key`; the link
text `key.split("/")[-1]` is the part after the last slash. -/
def anchorFor (key : String) : String :=
  "<li><a href=\"https://" ++ BUCKET ++ ".s3.amazonaws.com/" ++ key ++ "\">"
    ++ basename key ++ "</a></li>"

/-- `generate_index.py`: the lines of `index.html`, given the pages of
object keys the paginated `list_objects_v2` call yields under the prefix.
The nested loops append one anchor per listed key, skipping keys that end
in `/` (folder placeholders). -/
def generate_index (pages : List (List String)) : List String :=
  let html0 := ["<html><body>",
    "<h1>Processed Dataset</h1>",
    "<p><a href=\"" ++ PROCESSED_JSONL_URL
      ++ "\">Download mlk-archive-public.jsonl</a></p>",
    "<h1>Unprocessed National Archive Files</h1><ul>"]
  let html1 := pages.foldl (fun acc page =>
    page.foldl (fun acc2 key =>
      if endsWithSlash key then acc2 else acc2 ++ [anchorFor key]) acc) html0
  html1 ++ ["</ul></body></html>"]

/-- A minimal concrete records table used to exercise the scraper: a header
row with the two expected `th` cells, then one data row whose first cell
links to a PDF and whose second cell carries the release date. -/
def sampleTable : HtmlTable :=
  ⟨[⟨[⟨true, "Record Number", []⟩, ⟨true, "NARA Release Date", []⟩]⟩,
    ⟨[⟨false, "x.pdf", [⟨"/files/x.pdf", "x.pdf"⟩]⟩,
      ⟨false, "2025-01-01", []⟩]⟩]⟩

/-- Concrete stand-ins for `urljoin`/`urlparse(·).path` in witnesses. -/
def sampleLib : UrlLib := ⟨fun b h => b ++ h, fun s => s⟩

end MLK

/-- After storing under `key`, looking up `key` finds exactly the new object. -/
theorem lookupObj_insertObj_self (b : MLK.Bucket) (key : String) (obj : MLK.StoredObject) :
    MLK.lookupObj (MLK.insertObj b key obj) key = some obj := by
  induction b with
  | nil => simp [MLK.lookupObj, MLK.insertObj]
  | cons a b ih =>
    by_cases h : a.1 == key
    · simp only [MLK.insertObj, MLK.lookupObj] at ih ⊢
      simp [h, ih]
    · simp only [MLK.insertObj, MLK.lookupObj] at ih ⊢
      simp [h, List.find?, ih]

/-- C6: `get_content_type` returns the dedicated MIME type when the
lowercased extension is `.pdf`, `.mp3`, `.txt` or `.json`, and
`application/octet-stream` for every other filename. -/
theorem get_content_type_spec (f : String) :
    (MLK.strToLower (MLK.splitext f).2 = ".pdf" → MLK.get_content_type f = "application/pdf") ∧
    (MLK.strToLower (MLK.splitext f).2 = ".mp3" → MLK.get_content_type f = "audio/mpeg") ∧
    (MLK.strToLower (MLK.splitext f).2 = ".txt" → MLK.get_content_type f = "text/plain") ∧
    (MLK.strToLower (MLK.splitext f).2 = ".json" → MLK.get_content_type f = "application/json") ∧
    (MLK.strToLower (MLK.splitext f).2 ∉
        ([".pdf", ".mp3", ".txt", ".json"] : List String) →
      MLK.get_content_type f = "application/octet-stream") := by
  unfold MLK.get_content_type
  refine ⟨?_, ?_, ?_, ?_, ?_⟩ <;> intro h
  · simp [h]
  · simp [h]
  · simp [h]
  · simp [h]
  · simp only [List.mem_cons, List.mem_singleton, not_or] at h
    obtain ⟨h1, h2, h3, h4, -⟩ := h
    simp [h1, h2, h3, h4]

/-- C6 witness: concrete evaluations covering each case, including a
case-insensitive match and a filename without an extension. -/
theorem get_content_type_spec_witness :
    MLK.get_content_type "doc.PDF" = "application/pdf" ∧
    MLK.get_content_type "tape.mp3" = "audio/mpeg" ∧
    MLK.get_content_type "notes.TXT" = "text/plain" ∧
    MLK.get_content_type "data.json" = "application/json" ∧
    MLK.get_content_type "README" = "application/octet-stream" :=
  ⟨(get_content_type_spec "doc.PDF").1 (by decide),
   (get_content_type_spec "tape.mp3").2.1 (by decide),
   (get_content_type_spec "notes.TXT").2.2.1 (by decide),
   (get_content_type_spec "data.json").2.2.2.1 (by decide),
   (get_content_type_spec "README").2.2.2.2 (by decide)⟩

/-- C1: with a successful HEAD reporting Content-Length `L` and no S3 error:
if the object at key `prefix ++ basename(path)` exists with `ContentLength`
equal to `L`, the call returns success with the skip message and leaves the
whole state — bucket and counters — unchanged; otherwise (object absent or
size differing), provided the GET and the upload go through, it returns
success and the bucket now holds the full downloaded body under that key. -/
theorem download_skip_or_upload (e : MLK.UrlEnv) (url p now : String)
    (st : MLK.RunState) (L : Nat)
    (hhead : e.headResult = .ok (some L)) (hs3 : e.s3Error = false) :
    (∀ obj, MLK.lookupObj st.bucket (p ++ MLK.basename e.path) = some obj →
        obj.reportedLength = some (Int.ofNat L) →
        MLK.download_and_upload_file e url p now st =
          (⟨true, MLK.basename e.path, some "Already exists and matches size"⟩, st)) ∧
    (∀ body, e.getResult = .ok body → e.uploadError = false →
        (∀ obj, MLK.lookupObj st.bucket (p ++ MLK.basename e.path) = some obj →
            obj.reportedLength.getD (-1) ≠ Int.ofNat L) →
        (MLK.download_and_upload_file e url p now st).1 =
            ⟨true, MLK.basename e.path, none⟩ ∧
        MLK.lookupObj (MLK.download_and_upload_file e url p now st).2.bucket
            (p ++ MLK.basename e.path) =
          some ⟨body, some (Int.ofNat body.length),
                MLK.get_content_type (MLK.basename e.path),
                [("source_url", url), ("download_date", now),
                 ("content_length", toString body.length)]⟩) := by
  constructor
  · intro obj hfound hlen
    unfold MLK.download_and_upload_file
    rw [hhead]
    simp [hs3, hfound, hlen]
  · intro body hget hup hdiff
    unfold MLK.download_and_upload_file
    rw [hhead]
    have hskip :
        (match MLK.lookupObj st.bucket (p ++ MLK.basename e.path) with
          | some obj => obj.reportedLength.getD (-1) == Int.ofNat ((some L).getD 0)
          | none => false) = false := by
      cases hcase : MLK.lookupObj st.bucket (p ++ MLK.basename e.path) with
      | none => simp
      | some obj => simpa using hdiff obj hcase
    simp only [hs3, if_false, Bool.false_eq_true]
    rw [hskip]
    simp [hget, hup, lookupObj_insertObj_self]

/-- C1 witness: a concrete skip (object present with matching size 5) and a
concrete download-and-upload (object absent). -/
theorem download_skip_or_upload_witness :
    (MLK.download_and_upload_file
        ⟨"/docs/a.pdf", .ok (some 5), false, .ok [9, 9, 9, 9, 9], false⟩
        "https://h/docs/a.pdf" "mlk-archive/" "t"
        ⟨[("mlk-archive/a.pdf", ⟨[1, 2, 3, 4, 5], some 5, "application/pdf", []⟩)], 0, 0, 0⟩ =
      (⟨true, "a.pdf", some "Already exists and matches size"⟩,
       ⟨[("mlk-archive/a.pdf", ⟨[1, 2, 3, 4, 5], some 5, "application/pdf", []⟩)], 0, 0, 0⟩)) ∧
    ((MLK.download_and_upload_file
        ⟨"/docs/b.pdf", .ok (some 3), false, .ok [7, 7, 7], false⟩
        "https://h/docs/b.pdf" "mlk-archive/" "t" ⟨[], 0, 0, 0⟩).1 =
      ⟨true, "b.pdf", none⟩ ∧
     MLK.lookupObj (MLK.download_and_upload_file
        ⟨"/docs/b.pdf", .ok (some 3), false, .ok [7, 7, 7], false⟩
        "https://h/docs/b.pdf" "mlk-archive/" "t" ⟨[], 0, 0, 0⟩).2.bucket
        "mlk-archive/b.pdf" =
      some ⟨[7, 7, 7], some 3, "application/pdf",
            [("source_url", "https://h/docs/b.pdf"), ("download_date", "t"),
             ("content_length", "3")]⟩) := by
  constructor
  · exact (download_skip_or_upload
      ⟨"/docs/a.pdf", .ok (some 5), false, .ok [9, 9, 9, 9, 9], false⟩
      "https://h/docs/a.pdf" "mlk-archive/" "t"
      ⟨[("mlk-archive/a.pdf", ⟨[1, 2, 3, 4, 5], some 5, "application/pdf", []⟩)], 0, 0, 0⟩
      5 rfl rfl).1
      ⟨[1, 2, 3, 4, 5], some 5, "application/pdf", []⟩ (by decide) rfl
  · exact (download_skip_or_upload
      ⟨"/docs/b.pdf", .ok (some 3), false, .ok [7, 7, 7], false⟩
      "https://h/docs/b.pdf" "mlk-archive/" "t" ⟨[], 0, 0, 0⟩ 3 rfl rfl).2
      [7, 7, 7] rfl rfl (by intro obj hobj; simp [MLK.lookupObj] at hobj)

/-- C9: when the HEAD succeeds without a Content-Length header the expected
remote size is taken to be 0, so an existing object is skipped exactly when
its reported `ContentLength` is 0; any other stored object — nonzero size, or
a `head_object` response lacking `ContentLength` (defaulted to `-1`) — is
re-downloaded and re-uploaded. -/
theorem head_without_content_length (e : MLK.UrlEnv) (url p now : String)
    (st : MLK.RunState) (obj : MLK.StoredObject)
    (hhead : e.headResult = .ok none) (hs3 : e.s3Error = false)
    (hfound : MLK.lookupObj st.bucket (p ++ MLK.basename e.path) = some obj) :
    (obj.reportedLength = some 0 →
      MLK.download_and_upload_file e url p now st =
        (⟨true, MLK.basename e.path, some "Already exists and matches size"⟩, st)) ∧
    (obj.reportedLength ≠ some 0 →
      ∀ body, e.getResult = .ok body → e.uploadError = false →
        (MLK.download_and_upload_file e url p now st).1 =
            ⟨true, MLK.basename e.path, none⟩ ∧
        MLK.lookupObj (MLK.download_and_upload_file e url p now st).2.bucket
            (p ++ MLK.basename e.path) =
          some ⟨body, some (Int.ofNat body.length),
                MLK.get_content_type (MLK.basename e.path),
                [("source_url", url), ("download_date", now),
                 ("content_length", toString body.length)]⟩ ∧
        (MLK.download_and_upload_file e url p now st).2.downloaded
          = st.downloaded + 1) := by
  constructor
  · intro hzero
    unfold MLK.download_and_upload_file
    rw [hhead]
    simp [hs3, hfound, hzero]
  · intro hnonzero body hget hup
    unfold MLK.download_and_upload_file
    rw [hhead]
    have hskip :
        (match MLK.lookupObj st.bucket (p ++ MLK.basename e.path) with
          | some o => o.reportedLength.getD (-1) == Int.ofNat ((none : Option Nat).getD 0)
          | none => false) = false := by
      rw [hfound]
      cases hrl : obj.reportedLength with
      | none => simp [hrl]
      | some v =>
        have hv : v ≠ 0 := by
          intro hv; exact hnonzero (by rw [hrl, hv])
        simp [hrl, hv]
    simp only [hs3, if_false, Bool.false_eq_true]
    rw [hskip]
    simp [hget, hup, lookupObj_insertObj_self]

/-- C9 witness: with no Content-Length header, a stored object of size 0 is
skipped, while one of size 5 is re-downloaded. -/
theorem head_without_content_length_witness :
    (MLK.download_and_upload_file
        ⟨"/a.pdf", .ok none, false, .ok [1], false⟩ "u" "mlk-archive/" "t"
        ⟨[("mlk-archive/a.pdf", ⟨[], some 0, "application/pdf", []⟩)], 0, 0, 0⟩ =
      (⟨true, "a.pdf", some "Already exists and matches size"⟩,
       ⟨[("mlk-archive/a.pdf", ⟨[], some 0, "application/pdf", []⟩)], 0, 0, 0⟩)) ∧
    ((MLK.download_and_upload_file
        ⟨"/b.pdf", .ok none, false, .ok [1], false⟩ "u" "mlk-archive/" "t"
        ⟨[("mlk-archive/b.pdf", ⟨[1, 2, 3, 4, 5], some 5, "application/pdf", []⟩)], 0, 0, 0⟩).1 =
      ⟨true, "b.pdf", none⟩) := by
  constructor
  · exact (head_without_content_length
      ⟨"/a.pdf", .ok none, false, .ok [1], false⟩ "u" "mlk-archive/" "t"
      ⟨[("mlk-archive/a.pdf", ⟨[], some 0, "application/pdf", []⟩)], 0, 0, 0⟩
      ⟨[], some 0, "application/pdf", []⟩ rfl rfl (by decide)).1 rfl
  · exact ((head_without_content_length
      ⟨"/b.pdf", .ok none, false, .ok [1], false⟩ "u" "mlk-archive/" "t"
      ⟨[("mlk-archive/b.pdf", ⟨[1, 2, 3, 4, 5], some 5, "application/pdf", []⟩)], 0, 0, 0⟩
      ⟨[1, 2, 3, 4, 5], some 5, "application/pdf", []⟩ rfl rfl (by decide)).2
      (by decide) [1] rfl rfl).1

/-- C5: every object stored by an upload carries the content type inferred
from the filename's extension and metadata giving the source URL, the
download timestamp, and the byte count of the uploaded body. -/
theorem upload_object_metadata (e : MLK.UrlEnv) (url p now : String)
    (st : MLK.RunState) (header : Option Nat) (body : List Nat)
    (hhead : e.headResult = .ok header) (hs3 : e.s3Error = false)
    (hnoskip : ∀ obj, MLK.lookupObj st.bucket (p ++ MLK.basename e.path) = some obj →
        obj.reportedLength.getD (-1) ≠ Int.ofNat (header.getD 0))
    (hget : e.getResult = .ok body) (hup : e.uploadError = false) :
    ∃ obj, MLK.lookupObj (MLK.download_and_upload_file e url p now st).2.bucket
        (p ++ MLK.basename e.path) = some obj ∧
      obj.contentType = MLK.get_content_type (MLK.basename e.path) ∧
      obj.metadata = [("source_url", url), ("download_date", now),
                      ("content_length", toString body.length)] ∧
      obj.body = body := by
  unfold MLK.download_and_upload_file
  rw [hhead]
  have hskip :
      (match MLK.lookupObj st.bucket (p ++ MLK.basename e.path) with
        | some o => o.reportedLength.getD (-1) == Int.ofNat (header.getD 0)
        | none => false) = false := by
    cases hcase : MLK.lookupObj st.bucket (p ++ MLK.basename e.path) with
    | none => simp
    | some o => simpa using hnoskip o hcase
  simp only [hs3, if_false, Bool.false_eq_true]
  rw [hskip]
  simp only [hget, hup, if_false, Bool.false_eq_true]
  exact ⟨_, lookupObj_insertObj_self _ _ _, rfl, rfl, rfl⟩

/-- C5 witness: a concrete upload of a three-byte PDF stores the expected
content type and metadata. -/
theorem upload_object_metadata_witness :
    ∃ obj, MLK.lookupObj (MLK.download_and_upload_file
        ⟨"/docs/c.pdf", .ok (some 3), false, .ok [7, 7, 7], false⟩
        "https://h/docs/c.pdf" "mlk-archive/" "2025-07-22 13:38:07"
        ⟨[], 0, 0, 0⟩).2.bucket "mlk-archive/c.pdf" = some obj ∧
      obj.contentType = "application/pdf" ∧
      obj.metadata = [("source_url", "https://h/docs/c.pdf"),
                      ("download_date", "2025-07-22 13:38:07"),
                      ("content_length", "3")] ∧
      obj.body = [7, 7, 7] := by
  have h := upload_object_metadata
    ⟨"/docs/c.pdf", .ok (some 3), false, .ok [7, 7, 7], false⟩
    "https://h/docs/c.pdf" "mlk-archive/" "2025-07-22 13:38:07"
    ⟨[], 0, 0, 0⟩ (some 3) [7, 7, 7] rfl rfl
    (by intro obj hobj; simp [MLK.lookupObj] at hobj) rfl rfl
  simpa [MLK.get_content_type, MLK.strToLower, MLK.splitext, MLK.basename,
         MLK.lastIndexOf] using h

/-- Each call accounts for exactly one URL: the `downloaded` and `failed`
counters together grow by one unless the call skipped, in which case neither
moves. -/
theorem download_call_progress (e : MLK.UrlEnv) (url p now : String)
    (st : MLK.RunState) :
    (MLK.download_and_upload_file e url p now st).2.downloaded
        + (MLK.download_and_upload_file e url p now st).2.failed
        + (if MLK.isSkipped (MLK.download_and_upload_file e url p now st).1
            then 1 else 0)
      = st.downloaded + st.failed + 1 := by
  unfold MLK.download_and_upload_file
  rcases e with ⟨path, hr, s3e, gr, ue⟩
  rcases hr with msg | header
  · simp [MLK.isSkipped]; omega
  · rcases s3e
    · simp only [Bool.false_eq_true, if_false]
      split
      · simp [MLK.isSkipped]
      · rcases gr with msg | body
        · simp [MLK.isSkipped]; omega
        · rcases ue <;> simp [MLK.isSkipped] <;> omega
    · simp [MLK.isSkipped]; omega

/-- Each call adds to `total_size` exactly the byte count of the body it
uploaded, and nothing otherwise. -/
theorem download_call_bytes (e : MLK.UrlEnv) (url p now : String)
    (st : MLK.RunState) :
    (MLK.download_and_upload_file e url p now st).2.totalSize
      = st.totalSize
        + (if MLK.isUploaded (MLK.download_and_upload_file e url p now st).1
            then MLK.envBodySize e else 0) := by
  unfold MLK.download_and_upload_file
  rcases e with ⟨path, hr, s3e, gr, ue⟩
  rcases hr with msg | header
  · simp [MLK.isUploaded]
  · rcases s3e
    · simp only [Bool.false_eq_true, if_false]
      split
      · simp [MLK.isUploaded]
      · rcases gr with msg | body
        · simp [MLK.isUploaded]
        · rcases ue <;> simp [MLK.isUploaded, MLK.envBodySize]
    · simp [MLK.isUploaded]

/-- C3 (amended): over a whole run, `downloaded_count` plus `failed_count`
plus the number of skipped URLs equals the number of URLs processed, and
`total_size` equals the total byte count of the uploaded bodies.  (The claim
as frozen omits the skipped URLs; see the counterexample.) -/
theorem processUrls_counters (p now : String) (tasks : List MLK.UrlTask)
    (st : MLK.RunState) :
    (MLK.processUrls p now tasks st).1.downloaded
        + (MLK.processUrls p now tasks st).1.failed
        + ((MLK.processUrls p now tasks st).2.filter MLK.isSkipped).length
      = st.downloaded + st.failed + tasks.length
    ∧ (MLK.processUrls p now tasks st).1.totalSize
      = st.totalSize
          + MLK.uploadedBytes (tasks.zip (MLK.processUrls p now tasks st).2) := by
  induction tasks generalizing st with
  | nil => simp [MLK.processUrls, MLK.uploadedBytes]
  | cons t ts ih =>
    have h1 := download_call_progress t.env t.url p now st
    have h2 := download_call_bytes t.env t.url p now st
    obtain ⟨ih1, ih2⟩ := ih (MLK.download_and_upload_file t.env t.url p now st).2
    have hfilter : (List.filter MLK.isSkipped
        ((MLK.download_and_upload_file t.env t.url p now st).1 ::
          (MLK.processUrls p now ts
            (MLK.download_and_upload_file t.env t.url p now st).2).2)).length
        = (if MLK.isSkipped (MLK.download_and_upload_file t.env t.url p now st).1
            then 1 else 0)
          + (List.filter MLK.isSkipped
              (MLK.processUrls p now ts
                (MLK.download_and_upload_file t.env t.url p now st).2).2).length := by
      cases hsk : MLK.isSkipped (MLK.download_and_upload_file t.env t.url p now st).1
      · simp [List.filter_cons, hsk]
      · simp [List.filter_cons, hsk]
        omega
    simp only [MLK.processUrls, List.zip, List.zipWith_cons_cons, MLK.uploadedBytes,
      List.length_cons] at ih2 ⊢
    constructor
    · rw [hfilter]
      omega
    · omega

/-- C3 counterexample: on a one-URL run whose only call skips (the object is
already stored with matching size), `downloaded_count + failed_count` is 0,
not 1 — a skipped URL increments neither counter. -/
theorem processUrls_counters_cex :
    ¬ (MLK.skippedRun.1.downloaded + MLK.skippedRun.1.failed = 1) := by
  decide

/-- C10: called on an empty record list, `save_records` writes no file at
all — no CSV, no JSON, and no URL list. -/
theorem save_records_empty (jsonDump : List MLK.Record → String)
    (format ts : String) :
    MLK.save_records jsonDump [] format ts = [] := by
  simp [MLK.save_records]

/-- C7: on a non-empty record list, `save_records` writes the CSV file
(content headed by the `filename,url,release_date` header row) when the
format is `csv`, the JSON file when it is `json`, and in both cases also the
URL list holding each record's url followed by a newline, in input order. -/
theorem save_records_spec (jsonDump : List MLK.Record → String)
    (records : List MLK.Record) (ts : String) (h : records ≠ []) :
    MLK.save_records jsonDump records "csv" ts =
      [("mlk_records_" ++ ts ++ ".csv",
        "filename,url,release_date\r\n" ++ String.join (records.map MLK.csvRow)),
       ("mlk_urls_" ++ ts ++ ".txt",
        String.join (records.map (fun r => r.url ++ "\n")))] ∧
    MLK.save_records jsonDump records "json" ts =
      [("mlk_records_" ++ ts ++ ".json", jsonDump records),
       ("mlk_urls_" ++ ts ++ ".txt",
        String.join (records.map (fun r => r.url ++ "\n")))] := by
  constructor <;> simp [MLK.save_records, MLK.csvHeader, h]

/-- C7 witness: a concrete two-record list saved in both formats. -/
theorem save_records_spec_witness :
    MLK.save_records (fun _ => "[]")
      [⟨"a.pdf", "https://h/a.pdf", "2025-01-01"⟩,
       ⟨"b.mp3", "https://h/b.mp3", "Unknown"⟩] "csv" "TS" =
      [("mlk_records_TS.csv",
        "filename,url,release_date\r\n"
          ++ "a.pdf,https://h/a.pdf,2025-01-01\r\n"
          ++ "b.mp3,https://h/b.mp3,Unknown\r\n"),
       ("mlk_urls_TS.txt", "https://h/a.pdf\nhttps://h/b.mp3\n")] ∧
    MLK.save_records (fun _ => "[]")
      [⟨"a.pdf", "https://h/a.pdf", "2025-01-01"⟩,
       ⟨"b.mp3", "https://h/b.mp3", "Unknown"⟩] "json" "TS" =
      [("mlk_records_TS.json", "[]"),
       ("mlk_urls_TS.txt", "https://h/a.pdf\nhttps://h/b.mp3\n")] := by
  have h := save_records_spec (fun _ => "[]")
    [⟨"a.pdf", "https://h/a.pdf", "2025-01-01"⟩,
     ⟨"b.mp3", "https://h/b.mp3", "Unknown"⟩] "TS" (by decide)
  obtain ⟨h1, h2⟩ := h
  constructor
  · rw [h1]; decide
  · rw [h2]; decide

/-- Two distinct members force a list to have at least two elements. -/
theorem two_mem_le_length {α : Type} {a b : α} {l : List α}
    (ha : a ∈ l) (hb : b ∈ l) (hne : a ≠ b) : 2 ≤ l.length := by
  match l with
  | [] => cases ha
  | [x] =>
    rw [List.mem_singleton] at ha hb
    exact absurd (ha.trans hb.symm) hne
  | x :: y :: t => simp only [List.length_cons]; omega

/-- The `len(headers) >= 2` test in the source is redundant: the two
distinct header strings already force at least two header cells, so the
selected table is simply the first one whose headers contain both. -/
theorem findRecordsTable_headers (tables : List MLK.HtmlTable) :
    MLK.findRecordsTable tables = tables.find? (fun t =>
      (MLK.tableHeaders t).contains "Record Number"
        && (MLK.tableHeaders t).contains "NARA Release Date") := by
  unfold MLK.findRecordsTable
  congr 1
  funext t
  cases h1 : (MLK.tableHeaders t).contains "Record Number"
  · simp
  · cases h2 : (MLK.tableHeaders t).contains "NARA Release Date"
    · simp
    · have hm1 : "Record Number" ∈ MLK.tableHeaders t := by
        simpa using h1
      have hm2 : "NARA Release Date" ∈ MLK.tableHeaders t := by
        simpa using h2
      have hlen := two_mem_le_length hm1 hm2 (by decide)
      simp [hlen]

/-- Every record extracted from a table has its url formed by `urljoin`
against the base URL. -/
theorem extractTableRecords_url {lib : MLK.UrlLib} {t : MLK.HtmlTable}
    {r : MLK.Record} (h : r ∈ MLK.extractTableRecords lib t) :
    ∃ href, r.url = lib.urljoin MLK.base_url href := by
  unfold MLK.extractTableRecords at h
  rw [List.mem_filterMap] at h
  obtain ⟨row, -, hrow⟩ := h
  rcases row with ⟨cells⟩
  rcases cells with _ | ⟨c0, _ | ⟨c1, rest⟩⟩
  · simp at hrow
  · simp at hrow
  · rcases hl : c0.links.head? with _ | link
    · simp [hl] at hrow
    · simp only [hl, Option.some_inj] at hrow
      exact ⟨link.href, by rw [← hrow]⟩

/-- Every record of the page-wide fallback has its url formed by `urljoin`
against the base URL. -/
theorem fullPageRecords_url {lib : MLK.UrlLib} {links : List MLK.Link}
    {r : MLK.Record} (h : r ∈ MLK.fullPageRecords lib links) :
    ∃ href, r.url = lib.urljoin MLK.base_url href := by
  unfold MLK.fullPageRecords at h
  rw [List.mem_map] at h
  obtain ⟨l, -, hl⟩ := h
  exact ⟨l.href, by rw [← hl]⟩

/-- C2: table selection of `scrape_mlk_records` on a fetched page — the
first table whose headers include both 'Record Number' and 'NARA Release
Date'; failing that, the first table with more than 10 PDF links; failing
that, all PDF/MP3 links on the page — and every resulting record's url is
made absolute against the base URL. -/
theorem scrape_mlk_records_selection (lib : MLK.UrlLib) (page : MLK.Page) :
    (∀ t, page.tables.find? (fun t =>
          (MLK.tableHeaders t).contains "Record Number"
            && (MLK.tableHeaders t).contains "NARA Release Date") = some t →
        MLK.scrape_mlk_records lib (.ok page) = MLK.extractTableRecords lib t) ∧
    (page.tables.find? (fun t =>
          (MLK.tableHeaders t).contains "Record Number"
            && (MLK.tableHeaders t).contains "NARA Release Date") = none →
      (∀ t, MLK.findPdfTable page.tables = some t →
          MLK.scrape_mlk_records lib (.ok page) = MLK.extractTableRecords lib t) ∧
      (MLK.findPdfTable page.tables = none →
        MLK.scrape_mlk_records lib (.ok page) =
          MLK.fullPageRecords lib page.bodyLinks)) ∧
    (∀ r ∈ MLK.scrape_mlk_records lib (.ok page), ∃ href,
        r.url = lib.urljoin MLK.base_url href) := by
  have hsel := findRecordsTable_headers page.tables
  refine ⟨?_, ?_, ?_⟩
  · intro t ht
    simp only [MLK.scrape_mlk_records]
    rw [hsel, ht]
  · intro hnone
    constructor
    · intro t ht
      simp only [MLK.scrape_mlk_records]
      rw [hsel, hnone, ht]
    · intro hpdfnone
      simp only [MLK.scrape_mlk_records]
      rw [hsel, hnone, hpdfnone]
  · intro r hr
    simp only [MLK.scrape_mlk_records] at hr
    rcases h1 : MLK.findRecordsTable page.tables with _ | t
    · rw [h1] at hr
      rcases h2 : MLK.findPdfTable page.tables with _ | t
      · rw [h2] at hr
        exact fullPageRecords_url hr
      · rw [h2] at hr
        exact extractTableRecords_url hr
    · rw [h1] at hr
      exact extractTableRecords_url hr

/-- C2 witness: on a page holding the sample records table, the scraper
returns exactly that table's extracted records. -/
theorem scrape_mlk_records_selection_witness :
    MLK.scrape_mlk_records MLK.sampleLib (.ok ⟨[MLK.sampleTable], []⟩) =
        MLK.extractTableRecords MLK.sampleLib MLK.sampleTable ∧
    MLK.extractTableRecords MLK.sampleLib MLK.sampleTable =
      [⟨"x.pdf", "https://www.archives.gov/files/x.pdf", "2025-01-01"⟩] := by
  constructor
  · exact (scrape_mlk_records_selection MLK.sampleLib
      ⟨[MLK.sampleTable], []⟩).1 MLK.sampleTable (by decide)
  · decide

/-- C8: a fetch or parse exception makes `scrape_mlk_records` return the
empty list, and so does a page with no suitable table and no PDF/MP3 link. -/
theorem scrape_mlk_records_empty (lib : MLK.UrlLib) (m : String)
    (page : MLK.Page)
    (hrec : MLK.findRecordsTable page.tables = none)
    (hpdf : MLK.findPdfTable page.tables = none)
    (hlinks : page.bodyLinks.filter (fun l =>
        MLK.hrefContains l.href ".pdf" || MLK.hrefContains l.href ".mp3") = []) :
    MLK.scrape_mlk_records lib (.requestError m) = [] ∧
    MLK.scrape_mlk_records lib (.parseError m) = [] ∧
    MLK.scrape_mlk_records lib (.ok page) = [] := by
  refine ⟨rfl, rfl, ?_⟩
  simp only [MLK.scrape_mlk_records]
  rw [hrec, hpdf]
  unfold MLK.fullPageRecords
  rw [hlinks]
  rfl

/-- C8 witness: errors and a page with one non-document link both yield the
empty record list. -/
theorem scrape_mlk_records_empty_witness :
    MLK.scrape_mlk_records MLK.sampleLib (.requestError "boom") = [] ∧
    MLK.scrape_mlk_records MLK.sampleLib (.parseError "boom") = [] ∧
    MLK.scrape_mlk_records MLK.sampleLib
      (.ok ⟨[], [⟨"/about.html", "About"⟩]⟩) = [] :=
  scrape_mlk_records_empty MLK.sampleLib "boom" ⟨[], [⟨"/about.html", "About"⟩]⟩
    rfl rfl (by decide)

/-- The inner loop over one listing page appends one anchor per key that
does not end in `/`, in listing order. -/
theorem foldl_page_anchors (page acc : List String) :
    page.foldl (fun acc2 key =>
        if MLK.endsWithSlash key then acc2 else acc2 ++ [MLK.anchorFor key]) acc
      = acc ++ (page.filter
          (fun k => !(MLK.endsWithSlash k))).map MLK.anchorFor := by
  induction page generalizing acc with
  | nil => simp
  | cons k ks ih =>
    cases hk : MLK.endsWithSlash k <;>
      simp [List.foldl_cons, hk, ih, List.filter_cons]

/-- The outer loop over all listing pages appends one anchor per non-folder
key of the flattened listing, in order. -/
theorem foldl_pages_anchors (pages : List (List String)) (acc : List String) :
    pages.foldl (fun a page =>
        page.foldl (fun a2 key =>
          if MLK.endsWithSlash key then a2 else a2 ++ [MLK.anchorFor key]) a) acc
      = acc ++ ((pages.flatten.filter
          (fun k => !(MLK.endsWithSlash k))).map MLK.anchorFor) := by
  induction pages generalizing acc with
  | nil => simp
  | cons pg pgs ih =>
    simp only [List.foldl_cons, List.flatten_cons]
    rw [foldl_page_anchors, ih]
    simp [List.filter_append, List.map_append, List.append_assoc]

/-- C4 (amended): the emitted index is the static header — including the
single anchor to the hosted processed JSONL — followed by exactly one
anchor per listed object whose key does not end in `/` (folder placeholders
are skipped, which the claim as frozen omits), each anchor pairing the
object's public https URL with the final path component of its key, and the
closing lines. -/
theorem generate_index_spec (pages : List (List String)) :
    MLK.generate_index pages =
      ["<html><body>",
       "<h1>Processed Dataset</h1>",
       "<p><a href=\"" ++ MLK.PROCESSED_JSONL_URL
         ++ "\">Download mlk-archive-public.jsonl</a></p>",
       "<h1>Unprocessed National Archive Files</h1><ul>"]
      ++ ((pages.flatten.filter
          (fun k => !(MLK.endsWithSlash k))).map MLK.anchorFor)
      ++ ["</ul></body></html>"] ∧
    ∀ key, MLK.anchorFor key =
      "<li><a href=\"https://" ++ MLK.BUCKET ++ ".s3.amazonaws.com/"
        ++ key ++ "\">" ++ MLK.basename key ++ "</a></li>" := by
  constructor
  · simp only [MLK.generate_index]
    rw [foldl_pages_anchors]
  · intro key
    rfl

/-- C4 counterexample: when the listing returns exactly one object, whose
key ends in `/`, the index holds no anchor for it at all — refuting "one
anchor per object returned by the listing". -/
theorem generate_index_cex :
    ¬ (MLK.anchorFor "mlk-archive/audio/"
        ∈ MLK.generate_index [["mlk-archive/audio/"]]) := by
  decide
